import Mathlib

/-!
Verification development for the QtORM model layer (`qmodel.cpp`).

The C++ model state (`QModel::Private`) is embedded as a Lean structure
`Model`; `QString` is embedded as `Str := List Char`; `QVariant` as the
inductive `Variant`.  `QField` in the C++ code is a handle with a shared
private pointer: copying a `QField` aliases the same underlying field, so
`d->primaryKey = d->fields.at(i)` makes the designated primary key an alias
of element `i` of `fields`, and mutations through `pk()` are visible in
`fields`.  We embed this aliasing by storing the designated primary key as
an index `pkIdx : Option Nat` into `fields` (`none` models the
default-constructed, invalid `QField`).

Database execution is external: each persistence operation takes the
driver's identifier-escaping function `esc`, the execution outcome and the
connection's last-inserted id as oracles, and returns the new model state
together with a `QueryLog` recording the prepared SQL text, the bound
values in bind order, and whether an error was reported on the
observability channel (`qDebug`).
-/

namespace QtOrm

/-- Embedding of `QString`: a sequence of characters. -/
abbrev Str := List Char

/-- Embedding of `QVariant`: the invalid/null variant or a typed value. -/
inductive Variant where
  | null : Variant
  | intV (n : Int) : Variant
  | strV (s : Str) : Variant
  | doubleV (num den : Int) : Variant
  deriving DecidableEq, Repr

/-- The four field kinds offered by `QModel` (`stringField`, `intField`,
`doubleField`, `dateTimeField`). -/
inductive FieldType where
  | intT : FieldType
  | stringT : FieldType
  | doubleT : FieldType
  | dateTimeT : FieldType
  deriving DecidableEq, Repr

/-- Modelled from the spec: `qfield.cpp` is not part of the sources; the
spec's Field contract (spec section 3 and section 6) gives a field a name, a type,
nullability, a primary-key flag, an auto-increment flag, a modified flag
and a current raw value (`data()`). -/
structure Field where
  name : Str
  ftype : FieldType
  isNull : Bool
  primaryKey : Bool
  autoIncrement : Bool
  isModified : Bool
  data : Variant
  deriving DecidableEq, Repr

/-- Modelled from the spec: a freshly declared field (e.g. `QIntField rs(this,
name)`) holds no value yet (null), has no flags set and is unmodified. -/
def mkField (ty : FieldType) (nm : Str) : Field :=
  { name := nm, ftype := ty, isNull := true, primaryKey := false,
    autoIncrement := false, isModified := false, data := Variant.null }

/-- Modelled from the spec: the default-constructed, invalid `QField` that
`d->primaryKey` holds before `init` designates a real field. -/
def invalidField : Field := mkField FieldType.intT []

/-- Modelled from the spec: `setRawData(value)` assigns the raw value
directly; assigning the connection's last-inserted id makes the primary key
non-null (spec section 4.2 and the batch-arity discussion), and assigning the
invalid variant leaves it null.  The modified flag is untouched (raw
assignment is not the model-facing setter of spec section 3). -/
def Field.setRawData (f : Field) (v : Variant) : Field :=
  { f with data := v, isNull := v == Variant.null }

/-- Modelled from the spec: `setNull(true)` marks the field as holding no
value. -/
def Field.setNull (f : Field) : Field :=
  { f with isNull := true, data := Variant.null }

/-- Modelled from the spec: the model-facing value setter sets the value and
raises the modified flag (spec section 3 invariant on `isModified`). -/
def Field.setData (f : Field) (v : Variant) : Field :=
  { f with data := v, isNull := v == Variant.null, isModified := true }

/-- The skip condition used by `addInBatch` and `saveBatch`: a field
participates unless it is the primary key and currently null
(`!(field.primaryKey() && field.isNull())`). -/
def incl (f : Field) : Bool := !(f.primaryKey && f.isNull)

/-- Embedding of `QModel::Private`.  `pkIdx` embeds the aliasing handle
`d->primaryKey`: `some i` means the designated primary key is field `i` of
`fields`; `none` is the invalid default handle. -/
structure Model where
  db_table : Str
  tableNumber : Int
  fields : List Field
  pkIdx : Option Nat
  batch : List (List Variant)
  deriving DecidableEq, Repr

/-- `QModel::QModel(tableName)` with the default-initialised private part. -/
def newModel (tableName : Str) : Model :=
  { db_table := tableName, tableNumber := 0, fields := [], pkIdx := none,
    batch := [] }

/-- `QModel::addField`: appends to `d->fields`. -/
def Model.addField (m : Model) (f : Field) : Model :=
  { m with fields := m.fields ++ [f] }

/-- `QModel::intField(name)`: constructs a fresh int field and appends it
(`addField(rs)`). -/
def Model.intField (m : Model) (nm : Str) : Model :=
  m.addField (mkField FieldType.intT nm)

/-- `QModel::stringField(name)`. -/
def Model.stringField (m : Model) (nm : Str) : Model :=
  m.addField (mkField FieldType.stringT nm)

/-- `QModel::doubleField(name)`. -/
def Model.doubleField (m : Model) (nm : Str) : Model :=
  m.addField (mkField FieldType.doubleT nm)

/-- `QModel::dateTimeField(name)`. -/
def Model.dateTimeField (m : Model) (nm : Str) : Model :=
  m.addField (mkField FieldType.dateTimeT nm)

/-- `pk()`: the field currently designated by the `d->primaryKey` handle
(the invalid field when the handle was never assigned). -/
def Model.pk (m : Model) : Field :=
  match m.pkIdx with
  | some i => m.fields.getD i invalidField
  | none => invalidField

/-- `pk().isNull()`. -/
def Model.pkIsNull (m : Model) : Bool := m.pk.isNull

/-- Mutation through the aliasing `pk()` handle: rewrites the designated
element of `fields` (a mutation of the detached invalid handle is not
observable through `fields`). -/
def Model.updatePk (m : Model) (g : Field → Field) : Model :=
  match m.pkIdx with
  | some i => { m with fields := m.fields.set i (g (m.fields.getD i invalidField)) }
  | none => m

/-- The field `init` synthesizes when no declared field claims the primary
key: `intField("id")` followed by `setAutoIncrement(true)` and
`setPrimaryKey(true)`. -/
def synthesizedId : Field :=
  { mkField FieldType.intT "id".data with autoIncrement := true, primaryKey := true }

/-- `QModel::init`, translated line by line.  The loop scanning for the
first field with the primary-key flag is `findIdx?`.  In the synthesis
branch, `intField("id")` appends a fresh field to `fields`, the two flag
setters mutate that shared field (giving `synthesizedId`), `prepend` puts
another handle to it at position 0 and `remove(size-1)` drops the trailing
handle. -/
def Model.init (m : Model) : Model :=
  match m.fields.findIdx? (·.primaryKey) with
  | some i => { m with pkIdx := some i }
  | none =>
    if m.pkIdx.isSome then
      m
    else
      let fs1 := m.fields ++ [synthesizedId]
      let fs2 := synthesizedId :: fs1
      let fs3 := fs2.dropLast
      { m with fields := fs3, pkIdx := some 0 }

/-- `QModel::clearBatch`. -/
def Model.clearBatch (m : Model) : Model :=
  { m with batch := [] }

/-- The snapshot loop of `QModel::addInBatch`: iterate `fields` in order
and append each field's `data()`, skipping a null primary key. -/
def snapshotRow : List Field → List Variant
  | [] => []
  | f :: fs =>
    if f.primaryKey && f.isNull then snapshotRow fs
    else f.data :: snapshotRow fs

/-- `QModel::addInBatch`: appends the snapshot of the current field values
to `d->batch`. -/
def Model.addInBatch (m : Model) : Model :=
  { m with batch := m.batch ++ [snapshotRow m.fields] }

/-- Outcome of executing a prepared statement, supplied by the external
database connection: `ok` is `query.exec()` and `lastInsertId` is
`query.lastInsertId()` afterwards. -/
structure ExecOutcome where
  ok : Bool
  lastInsertId : Variant
  deriving DecidableEq, Repr

/-- What an operation handed to the database and to the observability
channel: the prepared SQL text, the values bound in order, and whether a
`qDebug` error report was emitted. -/
structure QueryLog where
  sql : Str
  binds : List Variant
  errorReported : Bool
  deriving DecidableEq, Repr

/-- The `saveBatch` loop that builds `field_list` and `placeholders`
simultaneously with a shared `first` flag, skipping the null primary
key. -/
def insertListsAux (esc : Str → Str) :
    List Field → Bool → Str → Str → Str × Str
  | [], _, fl, ph => (fl, ph)
  | f :: fs, first, fl, ph =>
    if f.primaryKey && f.isNull then
      insertListsAux esc fs first fl ph
    else
      insertListsAux esc fs false
        ((if first then fl else fl ++ ", ".data) ++ esc f.name)
        ((if first then ph else ph ++ ", ".data) ++ "?".data)

/-- `QString::repeated(n)`: the string concatenated `n` times. -/
def repeatedStr (s : Str) (n : Nat) : Str := (List.replicate n s).flatten

/-- The inner bind loop of `saveBatch` for one batch row: for every field
that is not a null primary key, bind `batch.at(i).at(field_index_in_batch++)`.
`getD` totalises the `.at` access; `bindRowSafe` below records whether
every such access is in bounds. -/
def bindRowAux (row : List Variant) : List Field → Nat → List Variant
  | [], _ => []
  | f :: fs, idx =>
    if f.primaryKey && f.isNull then bindRowAux row fs idx
    else row.getD idx Variant.null :: bindRowAux row fs (idx + 1)

/-- Whether every `.at(field_index_in_batch)` access the bind loop performs
on one batch row is within the row's bounds. -/
def bindRowSafe (row : List Variant) : List Field → Nat → Bool
  | [], _ => true
  | f :: fs, idx =>
    if f.primaryKey && f.isNull then bindRowSafe row fs idx
    else decide (idx < row.length) && bindRowSafe row fs (idx + 1)

/-- Whether the whole bind loop of `saveBatch` (rows outer, fields inner)
stays within every snapshot's bounds. -/
def Model.saveBatchBindSafe (m : Model) : Bool :=
  m.batch.all (fun row => bindRowSafe row m.fields 0)

/-- All values bound by `saveBatch`: batch rows outer, fields inner. -/
def Model.saveBatchBinds (m : Model) : List Variant :=
  (m.batch.map (fun row => bindRowAux row m.fields 0)).flatten

/-- `QModel::saveBatch`, translated step by step: early return on an empty
batch; build `field_list` and `placeholders`; wrap and multiply the
placeholder group (`"(%1), "`, `repeated(batch.size())`,
`resize(size - 2)`); format the INSERT statement; bind all rows; execute,
reporting an error on failure; finally `pk().setRawData(query.lastInsertId())`
unconditionally. -/
def Model.saveBatch (esc : Str → Str) (out : ExecOutcome) (m : Model) :
    Model × Option QueryLog :=
  if m.batch.length = 0 then
    (m, none)
  else
    let fp := insertListsAux esc m.fields true [] []
    let placeholders1 := "(".data ++ fp.2 ++ "), ".data
    let placeholders2 := repeatedStr placeholders1 m.batch.length
    let placeholders3 := placeholders2.take (placeholders2.length - 2)
    let sql := "INSERT INTO ".data ++ esc m.db_table ++ " (".data ++ fp.1
      ++ ") VALUES ".data ++ placeholders3 ++ ";".data
    let binds := m.saveBatchBinds
    let m1 := m.updatePk (fun f => f.setRawData out.lastInsertId)
    (m1, some { sql := sql, binds := binds, errorReported := !out.ok })

/-- The `save` update-path loop building the `SET` clause from the modified
fields with a `first` flag. -/
def updateSetAux (esc : Str → Str) : List Field → Bool → Str → Str
  | [], _, acc => acc
  | f :: fs, first, acc =>
    if !f.isModified then
      updateSetAux esc fs first acc
    else
      updateSetAux esc fs false
        ((if first then acc else acc ++ ", ".data) ++ esc f.name ++ "=?".data)

/-- The `save` update-path bind loop: bind `data()` of every modified
field, in field order. -/
def updateBindsAux : List Field → List Variant
  | [] => []
  | f :: fs =>
    if f.isModified then f.data :: updateBindsAux fs
    else updateBindsAux fs

/-- `QModel::save(forceInsert)`: insert path (`clearBatch; addInBatch;
saveBatch`) when `forceInsert || pk().isNull()`, otherwise the UPDATE path
binding the modified fields then the primary key for the WHERE clause. -/
def Model.save (esc : Str → Str) (out : ExecOutcome) (forceInsert : Bool)
    (m : Model) : Model × Option QueryLog :=
  if forceInsert || m.pkIsNull then
    Model.saveBatch esc out (Model.addInBatch (Model.clearBatch m))
  else
    let values := updateSetAux esc m.fields true []
    let sql := "UPDATE ".data ++ esc m.db_table ++ " SET ".data ++ values
      ++ " WHERE ".data ++ esc m.pk.name ++ "=?;".data
    let binds := updateBindsAux m.fields ++ [m.pk.data]
    (m, some { sql := sql, binds := binds, errorReported := !out.ok })

/-- `QModel::remove`: prepare and execute the DELETE, report an error on
failure, and set the primary key to null regardless of the outcome. -/
def Model.remove (esc : Str → Str) (execOk : Bool) (m : Model) :
    Model × QueryLog :=
  let sql := "DELETE FROM ".data ++ esc m.db_table ++ " WHERE ".data
    ++ esc m.pk.name ++ "=?;".data
  let binds := [m.pk.data]
  let m1 := m.updatePk Field.setNull
  (m1, { sql := sql, binds := binds, errorReported := !execOk })

/-- `QModel::resetModified`. -/
def Model.resetModified (m : Model) : Model :=
  { m with fields := m.fields.map (fun f => { f with isModified := false }) }

/-- A concrete driver escaping function for witnesses: wrap the identifier
in double quotes (the shape assumed in spec section 6). -/
def escQ (s : Str) : Str := '"' :: (s ++ ['"'])

/-- The number of fields that participate in a snapshot or in the INSERT
column list given the current field states. -/
def countIncl (fs : List Field) : Nat := (fs.filter incl).length

/-- Join a list of strings with a separator, no leading or trailing
separator (the shape produced by the C++ `first`-flag loops). -/
def glue (sep : Str) : Bool → List Str → Str
  | _, [] => []
  | first, x :: xs => (if first then [] else sep) ++ x ++ glue sep false xs

/-- Comma-style joining: `sepBy s [a, b, c] = a ++ s ++ b ++ s ++ c`. -/
def sepBy (sep : Str) (items : List Str) : Str := glue sep true items

/-- The caller-side idiom for declaring an explicit primary key: `intField(name)`
followed by `setPrimaryKey(true)` on the returned handle, which aliases the
freshly appended field. -/
def Model.intPkField (m : Model) (nm : Str) : Model :=
  m.addField { mkField FieldType.intT nm with primaryKey := true }

/-- Assigning a value through the model-facing setter of field `i` (the
handle returned at declaration time aliases `fields[i]`). -/
def Model.setFieldData (m : Model) (i : Nat) (v : Variant) : Model :=
  { m with fields := m.fields.set i ((m.fields.getD i invalidField).setData v) }

/-- A model declared with a single string field and no primary key, then
initialised: `fields = [id (pk, auto-increment, null), name]`. -/
def demoModel : Model :=
  Model.init ((newModel "person".data).stringField "name".data)

/-- `demoModel` after one `save(false)` whose INSERT succeeded with last
inserted id 5: the primary key now holds `5` and the batch holds the one
snapshot `[null]` taken while the primary key was still null. -/
def demoSaved : Model :=
  (Model.save escQ { ok := true, lastInsertId := Variant.intV 5 } false demoModel).1

/-- `demoSaved` after a further `addInBatch`: the new snapshot now includes
the non-null primary key, so the batch holds rows of arity 1 and 2. -/
def demoMixed : Model := Model.addInBatch demoSaved

/-- A model whose declared fields claim the primary key twice. -/
def twoPkModel : Model :=
  ((newModel "t".data).intPkField "a".data).intPkField "b".data

/-- A model with two declared non-key string fields, initialised, with two
batch snapshots taken while the synthesized primary key is null. -/
def batchModel : Model :=
  Model.addInBatch (Model.addInBatch
    (Model.init (((newModel "t".data).stringField "a".data).stringField "b".data)))

/-- A model with three string columns and a persisted primary key (id 9),
on which columns `a` and `c` were then modified through the setter. -/
def updModel : Model :=
  let declared := ((((newModel "t".data).stringField "a".data).stringField
    "b".data).stringField "c".data).init
  let saved := (Model.save escQ { ok := true, lastInsertId := Variant.intV 9 }
    false declared).1
  (saved.setFieldData 1 (Variant.strV "x".data)).setFieldData 3
    (Variant.strV "y".data)

/-- `updModel` with every modified flag cleared again. -/
def cleanModel : Model := Model.resetModified updModel

section Lemmas

variable {α β : Type}

theorem take_len_append (l₁ l₂ : List α) (n : Nat) (h : l₁.length = n) :
    (l₁ ++ l₂).take n = l₁ := by
  subst h; exact List.take_left l₁ l₂

theorem getD_set_self (l : List α) (i : Nat) (a d : α) (h : i < l.length) :
    (l.set i a).getD i d = a := by
  have hlt : i < (l.set i a).length := by simpa using h
  rw [List.getD_eq_getElem _ _ hlt]
  exact List.getElem_set_self hlt

theorem findIdx_none_all (p : α → Bool) :
    ∀ (fs : List α) (i : Nat), fs.findIdx? p i = none → ∀ x ∈ fs, p x = false
  | [], _, _, x, hx => by cases hx
  | f :: fs, i, h, x, hx => by
    rw [List.findIdx?_cons] at h
    by_cases hp : p f = true
    · simp [hp] at h
    · rcases List.mem_cons.mp hx with rfl | hmem
      · simpa using hp
      · exact findIdx_none_all p fs (i + 1) (by simpa [hp] using h) x hmem

theorem findIdx_none_of_all (p : α → Bool) :
    ∀ (fs : List α) (i : Nat), (∀ x ∈ fs, p x = false) → fs.findIdx? p i = none
  | [], _, _ => List.findIdx?_nil
  | f :: fs, i, h => by
    rw [List.findIdx?_cons]
    have hf : p f = false := h f (List.mem_cons_self f fs)
    simp only [hf, Bool.false_eq_true, if_false]
    exact findIdx_none_of_all p fs (i + 1) (fun x hx => h x (List.mem_cons_of_mem f hx))

theorem findIdx_some_mem (p : α → Bool) :
    ∀ (fs : List α) (i j : Nat), fs.findIdx? p i = some j → ∃ x ∈ fs, p x = true
  | [], i, j, h => by simp [List.findIdx?_nil] at h
  | f :: fs, i, j, h => by
    rw [List.findIdx?_cons] at h
    by_cases hp : p f = true
    · exact ⟨f, List.mem_cons_self f fs, hp⟩
    · rcases findIdx_some_mem p fs (i + 1) j (by simpa [hp] using h) with ⟨x, hx, hpx⟩
      exact ⟨x, List.mem_cons_of_mem f hx, hpx⟩

theorem glue_cons (sep : Str) (first : Bool) (x : Str) (xs : List Str) :
    glue sep first (x :: xs) = (if first then [] else sep) ++ x ++ glue sep false xs :=
  rfl

theorem sepBy_cons_cons (sep x y : Str) (ys : List Str) :
    sepBy sep (x :: y :: ys) = x ++ sep ++ sepBy sep (y :: ys) := by
  simp [sepBy, glue, List.append_assoc]

theorem insertListsAux_eq (esc : Str → Str) :
    ∀ (fs : List Field) (first : Bool) (fl ph : Str),
    insertListsAux esc fs first fl ph =
      (fl ++ glue ", ".data first ((fs.filter incl).map (fun f => esc f.name)),
       ph ++ glue ", ".data first ((fs.filter incl).map (fun _ => "?".data)))
  | [], first, fl, ph => by simp [insertListsAux, glue]
  | f :: fs, first, fl, ph => by
    cases hb : f.primaryKey && f.isNull with
    | true =>
      have hincl : incl f = false := by simp [incl, hb]
      rw [insertListsAux, if_pos hb, insertListsAux_eq esc fs first fl ph,
        List.filter_cons_of_neg (by simp [hincl])]
    | false =>
      have hincl : incl f = true := by simp [incl, hb]
      rw [insertListsAux, if_neg (by simp [hb]), insertListsAux_eq esc fs false _ _,
        List.filter_cons_of_pos hincl]
      simp only [List.map_cons, glue_cons]
      cases first <;> simp [List.append_assoc]

theorem updateSetAux_eq (esc : Str → Str) :
    ∀ (fs : List Field) (first : Bool) (acc : Str),
    updateSetAux esc fs first acc =
      acc ++ glue ", ".data first
        ((fs.filter (·.isModified)).map (fun f => esc f.name ++ "=?".data))
  | [], first, acc => by simp [updateSetAux, glue]
  | f :: fs, first, acc => by
    cases hm : f.isModified with
    | false =>
      rw [updateSetAux, if_pos (by simp [hm]), updateSetAux_eq esc fs first acc,
        List.filter_cons_of_neg (by simp [hm])]
    | true =>
      rw [updateSetAux, if_neg (by simp [hm]), updateSetAux_eq esc fs false _,
        List.filter_cons_of_pos hm]
      simp only [List.map_cons, glue_cons]
      cases first <;> simp [List.append_assoc]

theorem updateBindsAux_eq :
    ∀ fs : List Field,
    updateBindsAux fs = (fs.filter (·.isModified)).map (·.data)
  | [] => rfl
  | f :: fs => by
    cases hm : f.isModified with
    | false =>
      rw [updateBindsAux, if_neg (by simp [hm]), updateBindsAux_eq fs,
        List.filter_cons_of_neg (by simp [hm])]
    | true =>
      rw [updateBindsAux, if_pos hm, updateBindsAux_eq fs,
        List.filter_cons_of_pos hm, List.map_cons]

theorem snapshotRow_eq :
    ∀ fs : List Field, snapshotRow fs = (fs.filter incl).map (·.data)
  | [] => rfl
  | f :: fs => by
    cases hb : f.primaryKey && f.isNull with
    | true =>
      rw [snapshotRow, if_pos hb, snapshotRow_eq fs,
        List.filter_cons_of_neg (by simp [incl, hb])]
    | false =>
      rw [snapshotRow, if_neg (by simp [hb]), snapshotRow_eq fs,
        List.filter_cons_of_pos (by simp [incl, hb]), List.map_cons]

theorem countIncl_cons_skip {f : Field} (fs : List Field)
    (h : (f.primaryKey && f.isNull) = true) :
    countIncl (f :: fs) = countIncl fs := by
  unfold countIncl
  rw [List.filter_cons_of_neg (by simp [incl, h])]

theorem countIncl_cons_incl {f : Field} (fs : List Field)
    (h : (f.primaryKey && f.isNull) = false) :
    countIncl (f :: fs) = countIncl fs + 1 := by
  unfold countIncl
  rw [List.filter_cons_of_pos (by simp [incl, h])]
  simp

theorem bindRowAux_eq (row : List Variant) :
    ∀ (fs : List Field) (idx : Nat), idx + countIncl fs = row.length →
    bindRowAux row fs idx = row.drop idx
  | [], idx, h => by
    have hidx : idx = row.length := by simpa [countIncl] using h
    rw [bindRowAux, hidx, List.drop_length]
  | f :: fs, idx, h => by
    cases hb : f.primaryKey && f.isNull with
    | true =>
      rw [bindRowAux, if_pos hb]
      exact bindRowAux_eq row fs idx (by rwa [countIncl_cons_skip fs hb] at h)
    | false =>
      rw [countIncl_cons_incl fs hb] at h
      have hlt : idx < row.length := by omega
      rw [bindRowAux, if_neg (by simp [hb]),
        bindRowAux_eq row fs (idx + 1) (by omega),
        List.getD_eq_getElem row Variant.null hlt,
        List.drop_eq_getElem_cons hlt]

theorem flatten_length_const (F : Nat) :
    ∀ L : List (List Variant), (∀ r ∈ L, r.length = F) →
    L.flatten.length = L.length * F
  | [], _ => by simp
  | r :: L, h => by
    rw [List.flatten_cons, List.length_append, h r (List.mem_cons_self r L),
      flatten_length_const F L (fun x hx => h x (List.mem_cons_of_mem r hx))]
    simp [Nat.succ_mul, Nat.add_comm]

theorem repeatedStr_length (s : Str) : ∀ n : Nat, (repeatedStr s n).length = n * s.length
  | 0 => by simp [repeatedStr]
  | n + 1 => by
    have ih : (List.replicate n s).flatten.length = n * s.length := repeatedStr_length s n
    show (List.replicate (n + 1) s).flatten.length = (n + 1) * s.length
    rw [List.replicate_succ, List.flatten_cons, List.length_append, ih]
    ring

theorem repeated_take (g : Str) :
    ∀ B : Nat, 1 ≤ B →
    (repeatedStr (g ++ ", ".data) B).take ((repeatedStr (g ++ ", ".data) B).length - 2)
      = sepBy ", ".data (List.replicate B g)
  | 0, h => by omega
  | 1, _ => by
    have h1 : repeatedStr (g ++ ", ".data) 1 = g ++ ", ".data := by
      simp [repeatedStr]
    rw [h1]
    have hlen : (g ++ ", ".data).length - 2 = g.length := by
      simp [List.length_append]
    rw [hlen, take_len_append g _ g.length rfl]
    simp [sepBy, glue]
  | B + 2, _ => by
    have hrep : repeatedStr (g ++ ", ".data) (B + 2)
        = (g ++ ", ".data) ++ repeatedStr (g ++ ", ".data) (B + 1) := by
      simp [repeatedStr, List.replicate_succ, List.flatten_cons]
    have hlenR : (repeatedStr (g ++ ", ".data) (B + 1)).length
        = (B + 1) * (g.length + 2) := by
      rw [repeatedStr_length]; simp [List.length_append]
    have hge : 2 ≤ (repeatedStr (g ++ ", ".data) (B + 1)).length := by
      rw [hlenR]; nlinarith
    rw [hrep, List.length_append]
    have harith : (g ++ ", ".data).length + (repeatedStr (g ++ ", ".data) (B + 1)).length - 2
        = (g ++ ", ".data).length + ((repeatedStr (g ++ ", ".data) (B + 1)).length - 2) := by
      omega
    rw [harith, List.take_append, repeated_take g (B + 1) (by omega)]
    have hsep : sepBy ", ".data (List.replicate (B + 2) g)
        = g ++ ", ".data ++ sepBy ", ".data (List.replicate (B + 1) g) := by
      rw [show List.replicate (B + 2) g = g :: g :: List.replicate B g from by
            simp [List.replicate_succ],
          show List.replicate (B + 1) g = g :: List.replicate B g from by
            simp [List.replicate_succ]]
      exact sepBy_cons_cons _ _ _ _
    rw [hsep, List.append_assoc]

theorem wrap_group (x : Str) :
    "(".data ++ x ++ "), ".data = ("(".data ++ x ++ ")".data) ++ ", ".data := by
  simp [List.append_assoc]

theorem updatePk_batch (m : Model) (g : Field → Field) :
    (m.updatePk g).batch = m.batch := by
  unfold Model.updatePk
  cases m.pkIdx <;> simp

theorem updatePk_pk (m : Model) (i : Nat) (g : Field → Field)
    (hi : m.pkIdx = some i) (hlt : i < m.fields.length) :
    (m.updatePk g).pk = g (m.fields.getD i invalidField) := by
  unfold Model.updatePk Model.pk
  rw [hi]
  simp only [hi]
  exact getD_set_self _ _ _ _ hlt

theorem saveBatch_eq (esc : Str → Str) (out : ExecOutcome) (m : Model)
    (hlen : ¬ m.batch.length = 0) :
    Model.saveBatch esc out m =
      (m.updatePk (fun f => f.setRawData out.lastInsertId),
       some
        { sql := "INSERT INTO ".data ++ esc m.db_table ++ " (".data
            ++ (insertListsAux esc m.fields true [] []).1
            ++ ") VALUES ".data
            ++ (repeatedStr ("(".data ++ (insertListsAux esc m.fields true [] []).2
                  ++ "), ".data) m.batch.length).take
                ((repeatedStr ("(".data ++ (insertListsAux esc m.fields true [] []).2
                  ++ "), ".data) m.batch.length).length - 2)
            ++ ";".data,
          binds := m.saveBatchBinds,
          errorReported := !out.ok }) := by
  unfold Model.saveBatch
  rw [if_neg hlen]

theorem insertLists_fst (esc : Str → Str) (fs : List Field) :
    (insertListsAux esc fs true [] []).1
      = sepBy ", ".data ((fs.filter incl).map (fun f => esc f.name)) := by
  rw [insertListsAux_eq]
  simp [sepBy]

theorem insertLists_snd (esc : Str → Str) (fs : List Field) :
    (insertListsAux esc fs true [] []).2
      = sepBy ", ".data (List.replicate (countIncl fs) "?".data) := by
  rw [insertListsAux_eq]
  simp [sepBy, countIncl, List.map_const']

end Lemmas

/-- C1 (counterexample): on a reachable model whose primary key is already
persisted (`demoSaved`, id = 5) with a non-empty batch, a `saveBatch` whose
execution fails does NOT leave the model's state as-is: the primary key's
raw value is overwritten with the (invalid) last-inserted id even though
execution failed. -/
theorem c1_counterexample :
    (Model.saveBatch escQ { ok := false, lastInsertId := Variant.null } demoSaved).1
      ≠ demoSaved := by
  decide

/-- C1 (amended): for every call to `saveBatch` with a non-empty batch on
an initialised model, the error is reported exactly when execution fails,
the batch is not cleared in either case, and the primary key's raw value is
set to the connection's last-inserted id unconditionally — on success and
on failure alike (the statement `pk().setRawData(query.lastInsertId())` is
outside the error check). -/
theorem c1_saveBatch_failure_behavior (esc : Str → Str) (out : ExecOutcome)
    (m : Model) (i : Nat) (hB : m.batch ≠ []) (hi : m.pkIdx = some i)
    (hlt : i < m.fields.length) :
    (Model.saveBatch esc out m).1.batch = m.batch
    ∧ (Model.saveBatch esc out m).1.pk.data = out.lastInsertId
    ∧ ∃ log, (Model.saveBatch esc out m).2 = some log
        ∧ log.errorReported = !out.ok := by
  have hlen : ¬ m.batch.length = 0 := by
    simpa [List.length_eq_zero] using hB
  unfold Model.saveBatch
  simp only [if_neg hlen]
  refine ⟨updatePk_batch m _, ?_, _, rfl, rfl⟩
  rw [updatePk_pk m i _ hi hlt]
  rfl

/-- C1 witness for the amended theorem, at `demoSaved` with a failing
execution. -/
theorem c1_witness :
    demoSaved.batch ≠ [] ∧ demoSaved.pkIdx = some 0 ∧ 0 < demoSaved.fields.length
    ∧ ((Model.saveBatch escQ { ok := false, lastInsertId := Variant.null } demoSaved).1.batch
        = demoSaved.batch
      ∧ (Model.saveBatch escQ { ok := false, lastInsertId := Variant.null } demoSaved).1.pk.data
        = Variant.null
      ∧ ∃ log, (Model.saveBatch escQ { ok := false, lastInsertId := Variant.null } demoSaved).2
          = some log ∧ log.errorReported = !false) :=
  ⟨by decide, by decide, by decide,
    c1_saveBatch_failure_behavior escQ { ok := false, lastInsertId := Variant.null }
      demoSaved 0 (by decide) (by decide) (by decide)⟩

/-- C2 (counterexample): on a model whose declared fields claim the primary
key twice, `init` leaves BOTH primary-key flags set: it is false that
exactly one field of `fields` has the flag after initialization. -/
theorem c2_counterexample :
    ¬ (((Model.init twoPkModel).fields.filter (·.primaryKey)).length = 1) := by
  decide

/-- C2 (amended): after `init` on a not-yet-initialised model, the first
field claiming the primary key (in declaration order) becomes the
designated primary key with `fields` untouched; exactly one field of
`fields` carries the primary-key flag provided at most one declared field
claimed it (when none did, the synthesized `id` is the one; extra claimed
flags are never cleared). -/
theorem c2_unique_pk_flag (m : Model) (h0 : m.pkIdx = none) :
    (∀ i, m.fields.findIdx? (·.primaryKey) = some i →
      Model.init m = { m with pkIdx := some i })
    ∧ ((m.fields.filter (·.primaryKey)).length ≤ 1 →
      ((Model.init m).fields.filter (·.primaryKey)).length = 1) := by
  constructor
  · intro i hf
    simp [Model.init, hf]
  · intro hle
    cases hf : m.fields.findIdx? (·.primaryKey) with
    | some j =>
      simp only [Model.init, hf]
      rcases findIdx_some_mem _ m.fields 0 j hf with ⟨x, hx, hpx⟩
      have hmem : x ∈ m.fields.filter (·.primaryKey) :=
        List.mem_filter.mpr ⟨hx, hpx⟩
      have h1 : 1 ≤ (m.fields.filter (·.primaryKey)).length :=
        List.length_pos.mpr (List.ne_nil_of_mem hmem)
      omega
    | none =>
      have hall := findIdx_none_all _ m.fields 0 hf
      have hfil : m.fields.filter (·.primaryKey) = [] :=
        List.filter_eq_nil_iff.mpr (by intro a ha; simp [hall a ha])
      have hsome : m.pkIdx.isSome = false := by rw [h0]; rfl
      simp only [Model.init, hf, hsome, Bool.false_eq_true, if_false]
      rw [show synthesizedId :: (m.fields ++ [synthesizedId])
            = (synthesizedId :: m.fields) ++ [synthesizedId] from rfl,
        List.dropLast_concat,
        List.filter_cons_of_pos (by rfl), hfil]
      rfl

/-- C2 witness for the amended theorem: on `twoPkModel` the first declared
claimant (index 0) is designated and `fields` is untouched; on the
single-field `demoModel` declaration the flag count after `init` is one. -/
theorem c2_witness :
    (Model.init twoPkModel = { twoPkModel with pkIdx := some 0 })
    ∧ (((Model.init ((newModel "person".data).stringField "name".data)).fields.filter
        (·.primaryKey)).length = 1) :=
  ⟨(c2_unique_pk_flag twoPkModel rfl).1 0 (by decide),
    (c2_unique_pk_flag ((newModel "person".data).stringField "name".data) rfl).2
      (by decide)⟩

/-- C3 (counterexample): on the reachable state `demoMixed` — built by
`init`, `addInBatch`, a successful `saveBatch` (which assigns the
last-inserted id to the primary key), then `addInBatch` again — the batch
holds snapshots of different arities, so it is false that all snapshots
present in the batch at one time share the same arity. -/
theorem c3_counterexample :
    ¬ (∀ r1 ∈ demoMixed.batch, ∀ r2 ∈ demoMixed.batch,
        r1.length = r2.length) := by
  decide

/-- C3 (amended): each `addInBatch` appends exactly one snapshot whose
arity equals the number of fields at its own build time, the primary-key
field excluded exactly while it is null at that moment; snapshots taken
while the primary key's nullness is unchanged therefore agree in arity,
but snapshots already in the batch are not rebuilt, so a nullness change
between `addInBatch` calls (e.g. a `saveBatch` assigning the last-inserted
id) leaves the batch with mixed arities. -/
theorem c3_snapshot_arity (m : Model) :
    (Model.addInBatch m).batch = m.batch ++ [snapshotRow m.fields]
    ∧ (snapshotRow m.fields).length = countIncl m.fields := by
  refine ⟨rfl, ?_⟩
  rw [snapshotRow_eq]
  simp [countIncl]

/-- C5: for a model declared with no primary-key field, `init` places the
synthesized auto-increment integer field `id` at position 0 as the
designated primary key, shifting all previously declared fields one
position later with none duplicated or lost, and no other field carries
the primary-key flag. -/
theorem c5_pk_synthesis (m : Model) (h0 : m.pkIdx = none)
    (h1 : ∀ f ∈ m.fields, f.primaryKey = false) :
    (Model.init m).fields = synthesizedId :: m.fields
    ∧ (Model.init m).pkIdx = some 0
    ∧ synthesizedId.name = "id".data
    ∧ synthesizedId.ftype = FieldType.intT
    ∧ synthesizedId.primaryKey = true
    ∧ synthesizedId.autoIncrement = true
    ∧ (Model.init m).fields.filter (·.primaryKey) = [synthesizedId] := by
  have hf : m.fields.findIdx? (·.primaryKey) = none :=
    findIdx_none_of_all _ m.fields 0 h1
  have hsome : m.pkIdx.isSome = false := by rw [h0]; rfl
  have hfil : m.fields.filter (·.primaryKey) = [] :=
    List.filter_eq_nil_iff.mpr (by intro a ha; simp [h1 a ha])
  have hfields : (Model.init m).fields = synthesizedId :: m.fields := by
    simp only [Model.init, hf, hsome, Bool.false_eq_true, if_false]
    rw [show synthesizedId :: (m.fields ++ [synthesizedId])
          = (synthesizedId :: m.fields) ++ [synthesizedId] from rfl,
      List.dropLast_concat]
  refine ⟨hfields, ?_, rfl, rfl, rfl, rfl, ?_⟩
  · simp [Model.init, hf, hsome]
  · rw [hfields, List.filter_cons_of_pos (by rfl), hfil]

/-- C5 witness: the declaration of `demoModel` (one string field, no
primary key) before `init`. -/
theorem c5_witness :
    (Model.init ((newModel "person".data).stringField "name".data)).fields
      = synthesizedId :: ((newModel "person".data).stringField "name".data).fields
    ∧ (Model.init ((newModel "person".data).stringField "name".data)).pkIdx = some 0
    ∧ synthesizedId.name = "id".data
    ∧ synthesizedId.ftype = FieldType.intT
    ∧ synthesizedId.primaryKey = true
    ∧ synthesizedId.autoIncrement = true
    ∧ (Model.init ((newModel "person".data).stringField "name".data)).fields.filter
        (·.primaryKey) = [synthesizedId] :=
  c5_pk_synthesis ((newModel "person".data).stringField "name".data) rfl (by decide)

/-- C8: after `remove()` on an initialised model, the primary key is null,
whether or not the DELETE execution succeeded (`pk().setNull(true)` runs
unconditionally). -/
theorem c8_remove_nulls_pk (esc : Str → Str) (execOk : Bool) (m : Model)
    (i : Nat) (hi : m.pkIdx = some i) (hlt : i < m.fields.length) :
    (Model.remove esc execOk m).1.pkIsNull = true := by
  show (m.updatePk Field.setNull).pk.isNull = true
  rw [updatePk_pk m i Field.setNull hi hlt]
  rfl

/-- C8 witness: removing `updModel` (persisted primary key, id 9) with a
FAILING delete execution still leaves the primary key null. -/
theorem c8_witness :
    updModel.pkIdx = some 0 ∧ 0 < updModel.fields.length
    ∧ (Model.remove escQ false updModel).1.pkIsNull = true :=
  ⟨by decide, by decide, c8_remove_nulls_pk escQ false updModel 0 (by decide) (by decide)⟩

/-- C7: on the update path (`save(false)` with a non-null primary key),
the SET clause contains exactly the fields whose modified flag is true, in
declaration order, and the bound values are those fields' values in the
same order followed by the primary key's value last for the WHERE
clause; the model's state is untouched. -/
theorem c7_selective_update (esc : Str → Str) (out : ExecOutcome) (m : Model)
    (hpk : m.pkIsNull = false) :
    (Model.save esc out false m).1 = m
    ∧ (Model.save esc out false m).2 = some
      { sql := "UPDATE ".data ++ esc m.db_table ++ " SET ".data
          ++ sepBy ", ".data
            ((m.fields.filter (·.isModified)).map (fun f => esc f.name ++ "=?".data))
          ++ " WHERE ".data ++ esc m.pk.name ++ "=?;".data,
        binds := (m.fields.filter (·.isModified)).map (·.data) ++ [m.pk.data],
        errorReported := !out.ok } := by
  constructor
  · simp [Model.save, hpk]
  · simp only [Model.save, hpk, Bool.or_false, Bool.false_or, Bool.false_eq_true, if_false]
    rw [updateSetAux_eq, updateBindsAux_eq]
    simp [sepBy]

/-- C7 witness: `updModel` has columns `a` and `c` modified out of
`{a, b, c}` and a persisted primary key of value 9; `save(false)` yields a
SET clause listing exactly `a` and `c`, and binds their two values followed
by the primary key's value. -/
theorem c7_witness :
    updModel.pkIsNull = false
    ∧ (Model.save escQ { ok := true, lastInsertId := Variant.null } false updModel).1
        = updModel
    ∧ (Model.save escQ { ok := true, lastInsertId := Variant.null } false updModel).2
      = some
      { sql := "UPDATE ".data ++ escQ updModel.db_table ++ " SET ".data
          ++ sepBy ", ".data
            ((updModel.fields.filter (·.isModified)).map
              (fun f => escQ f.name ++ "=?".data))
          ++ " WHERE ".data ++ escQ updModel.pk.name ++ "=?;".data,
        binds := (updModel.fields.filter (·.isModified)).map (·.data)
          ++ [updModel.pk.data],
        errorReported := !true } :=
  ⟨by decide,
    (c7_selective_update escQ { ok := true, lastInsertId := Variant.null } updModel
      (by decide)).1,
    (c7_selective_update escQ { ok := true, lastInsertId := Variant.null } updModel
      (by decide)).2⟩

/-- C9: `save(false)` on a model with a non-null primary key and no
modified field is not guarded against: it still prepares an UPDATE
statement, whose SET clause is empty, binding only the primary key's
value. -/
theorem c9_empty_set_clause (esc : Str → Str) (out : ExecOutcome) (m : Model)
    (hpk : m.pkIsNull = false) (hmod : ∀ f ∈ m.fields, f.isModified = false) :
    (Model.save esc out false m).2 = some
      { sql := "UPDATE ".data ++ esc m.db_table ++ " SET ".data ++ ([] : Str)
          ++ " WHERE ".data ++ esc m.pk.name ++ "=?;".data,
        binds := [m.pk.data],
        errorReported := !out.ok } := by
  have hfil : m.fields.filter (·.isModified) = [] :=
    List.filter_eq_nil_iff.mpr (by intro a ha; simp [hmod a ha])
  simp only [Model.save, hpk, Bool.or_false, Bool.false_or, Bool.false_eq_true, if_false]
  rw [updateSetAux_eq, updateBindsAux_eq, hfil]
  simp [sepBy, glue]

/-- C9 witness: `cleanModel` (persisted primary key, every modified flag
reset) produces the invalid empty-SET UPDATE. -/
theorem c9_witness :
    cleanModel.pkIsNull = false
    ∧ (∀ f ∈ cleanModel.fields, f.isModified = false)
    ∧ (Model.save escQ { ok := true, lastInsertId := Variant.null } false cleanModel).2
      = some
      { sql := "UPDATE ".data ++ escQ cleanModel.db_table ++ " SET ".data ++ ([] : Str)
          ++ " WHERE ".data ++ escQ cleanModel.pk.name ++ "=?;".data,
        binds := [cleanModel.pk.data],
        errorReported := !true } :=
  ⟨by decide, by decide,
    c9_empty_set_clause escQ { ok := true, lastInsertId := Variant.null } cleanModel
      (by decide) (by decide)⟩

/-- C4: for a non-empty batch of B rows over F currently included fields
(primary key skipped while null), each snapshot having arity F, `saveBatch`
issues one INSERT whose column list is the included field names in
declaration order and whose VALUES clause is B comma-separated
parenthesized groups of F placeholders each, with no trailing separator;
it binds the batch's rows flattened in row-major order — rows outer,
fields inner — which is exactly B×F values. -/
theorem c4_saveBatch_placeholders_binds (esc : Str → Str) (out : ExecOutcome)
    (m : Model) (hB : m.batch ≠ [])
    (hA : ∀ row ∈ m.batch, row.length = countIncl m.fields) :
    (Model.saveBatch esc out m).2 = some
      { sql := "INSERT INTO ".data ++ esc m.db_table ++ " (".data
          ++ sepBy ", ".data ((m.fields.filter incl).map (fun f => esc f.name))
          ++ ") VALUES ".data
          ++ sepBy ", ".data (List.replicate m.batch.length
              ("(".data ++ sepBy ", ".data
                (List.replicate (countIncl m.fields) "?".data) ++ ")".data))
          ++ ";".data,
        binds := m.batch.flatten,
        errorReported := !out.ok }
    ∧ m.batch.flatten.length = m.batch.length * countIncl m.fields := by
  have hlen : ¬ m.batch.length = 0 := by
    simpa [List.length_eq_zero] using hB
  have hB1 : 1 ≤ m.batch.length := Nat.pos_of_ne_zero hlen
  have hbindrow : ∀ row ∈ m.batch, bindRowAux row m.fields 0 = row := by
    intro row hr
    rw [bindRowAux_eq row m.fields 0 (by rw [hA row hr]; omega), List.drop_zero]
  have hbinds : m.saveBatchBinds = m.batch.flatten := by
    unfold Model.saveBatchBinds
    rw [List.map_congr_left hbindrow]
    simp
  refine ⟨?_, flatten_length_const _ m.batch hA⟩
  rw [saveBatch_eq esc out m hlen]
  rw [insertLists_fst, insertLists_snd, hbinds, wrap_group,
    repeated_take ("(".data ++ sepBy ", ".data
      (List.replicate (countIncl m.fields) "?".data) ++ ")".data) m.batch.length hB1]

/-- C4 witness: `batchModel` — table `t`, columns `a`, `b`, synthesized
null primary key, two snapshots of arity 2: B = 2 groups of F = 2
placeholders, 4 bound values. -/
theorem c4_witness :
    batchModel.batch ≠ []
    ∧ (∀ row ∈ batchModel.batch, row.length = countIncl batchModel.fields)
    ∧ (Model.saveBatch escQ { ok := true, lastInsertId := Variant.intV 3 } batchModel).2
      = some
      { sql := "INSERT INTO ".data ++ escQ batchModel.db_table ++ " (".data
          ++ sepBy ", ".data ((batchModel.fields.filter incl).map (fun f => escQ f.name))
          ++ ") VALUES ".data
          ++ sepBy ", ".data (List.replicate batchModel.batch.length
              ("(".data ++ sepBy ", ".data
                (List.replicate (countIncl batchModel.fields) "?".data) ++ ")".data))
          ++ ";".data,
        binds := batchModel.batch.flatten,
        errorReported := !true }
    ∧ batchModel.batch.flatten.length
        = batchModel.batch.length * countIncl batchModel.fields :=
  ⟨by decide, by decide,
    (c4_saveBatch_placeholders_binds escQ { ok := true, lastInsertId := Variant.intV 3 }
      batchModel (by decide) (by decide)).1,
    (c4_saveBatch_placeholders_binds escQ { ok := true, lastInsertId := Variant.intV 3 }
      batchModel (by decide) (by decide)).2⟩

/-- C6: `save(forceInsert)` takes the insert path — batch cleared and
replaced by the single snapshot of the current field values, flushed
through `saveBatch` as a batch of size 1, with INSERT-shaped SQL — exactly
when `forceInsert` is true or the primary key is null; otherwise it leaves
the model untouched and prepares UPDATE-shaped SQL. -/
theorem c6_save_branch (esc : Str → Str) (out : ExecOutcome) (fi : Bool)
    (m : Model) :
    ((fi || m.pkIsNull) = true →
      (Model.save esc out fi m).1.batch = [snapshotRow m.fields]
      ∧ ∃ log, (Model.save esc out fi m).2 = some log
          ∧ log.sql.take 12 = "INSERT INTO ".data)
    ∧ ((fi || m.pkIsNull) = false →
      (Model.save esc out fi m).1 = m
      ∧ ∃ log, (Model.save esc out fi m).2 = some log
          ∧ log.sql.take 7 = "UPDATE ".data) := by
  constructor
  · intro h
    have hlen : ¬ (Model.addInBatch (Model.clearBatch m)).batch.length = 0 := by
      simp [Model.addInBatch, Model.clearBatch]
    have hsave : Model.save esc out fi m
        = Model.saveBatch esc out (Model.addInBatch (Model.clearBatch m)) := by
      unfold Model.save
      rw [h, if_pos rfl]
    rw [hsave, saveBatch_eq esc out _ hlen]
    refine ⟨?_, _, rfl, ?_⟩
    · rw [updatePk_batch]
      rfl
    · simp only [List.append_assoc]
      exact take_len_append _ _ 12 rfl
  · intro h
    have hred : Model.save esc out fi m
        = (m, some
            { sql := "UPDATE ".data ++ esc m.db_table ++ " SET ".data
                ++ updateSetAux esc m.fields true []
                ++ " WHERE ".data ++ esc m.pk.name ++ "=?;".data,
              binds := updateBindsAux m.fields ++ [m.pk.data],
              errorReported := !out.ok }) := by
      unfold Model.save
      rw [h, if_neg (by simp)]
    rw [hred]
    refine ⟨rfl, _, rfl, ?_⟩
    simp only [List.append_assoc]
    exact take_len_append _ _ 7 rfl

/-- C6 witness: on `demoModel` (primary key null) `save(false)` inserts,
and on `demoSaved` (primary key persisted) `save(false)` updates. -/
theorem c6_witness :
    ((Model.save escQ { ok := true, lastInsertId := Variant.intV 5 } false demoModel).1.batch
        = [snapshotRow demoModel.fields]
      ∧ ∃ log, (Model.save escQ { ok := true, lastInsertId := Variant.intV 5 }
            false demoModel).2 = some log
          ∧ log.sql.take 12 = "INSERT INTO ".data)
    ∧ ((Model.save escQ { ok := true, lastInsertId := Variant.intV 5 } false demoSaved).1
        = demoSaved
      ∧ ∃ log, (Model.save escQ { ok := true, lastInsertId := Variant.intV 5 }
            false demoSaved).2 = some log
          ∧ log.sql.take 7 = "UPDATE ".data) :=
  ⟨(c6_save_branch escQ { ok := true, lastInsertId := Variant.intV 5 } false
      demoModel).1 (by decide),
    (c6_save_branch escQ { ok := true, lastInsertId := Variant.intV 5 } false
      demoSaved).2 (by decide)⟩

/-- C10 (code bug): on the reachable state `demoMixed` — `init`,
`addInBatch` (snapshot of arity 1 while the primary key is null), a
successful `saveBatch` (assigns the last-inserted id, making the primary
key non-null), then `addInBatch` — the bind loop of the next `saveBatch`
advances its per-row index once per currently included field, which for
the first (older, shorter) snapshot reaches an index at or beyond that
snapshot's arity: the access `batch.at(i).at(field_index_in_batch)` is out
of bounds. -/
theorem c10_bind_out_of_bounds :
    demoMixed.batch ≠ [] ∧ demoMixed.saveBatchBindSafe = false := by
  decide

end QtOrm
